import Mathlib

/-!
Verification of the roadtrip-planner request-admission and retrieval core.

A shallow embedding, in Lean 4, of the core components of the
`roadtrip-planner` repository:

* the sliding-window `RateLimiter` (`src/api/main.py`),
* the TTL `SearchCache` (`src/api/main.py`),
* the cosine-similarity search (`src/data_pipeline/search_places.py`),
* the retrieval orchestration `search_google_places` (`src/api/main.py`).

Timestamps (Python `time.time()` floats) are modelled as rationals `ℚ`.
Embedding vectors (Python floats) are modelled as real numbers `ℝ`, so the
arithmetic facts proved here are about the exact-arithmetic idealization of
the floating-point code.  State-mutating Python methods are modelled as
functions returning the updated state alongside their result.
-/

namespace RoadTrip

/-! Rate limiter (`src/api/main.py`, class `RateLimiter`)

`minute_window` and `day_window` are `collections.deque`s of timestamps,
oldest first; `popleft` from the front corresponds to `List.dropWhile`. -/

structure RateLimiter where
  per_minute : Nat
  per_day : Nat
  name : String
  minute_window : List ℚ
  day_window : List ℚ
deriving Repr, DecidableEq

/-- `RateLimiter.__init__`: fresh limiter with empty windows. -/

def RateLimiter.init (per_minute per_day : Nat) (name : String) : RateLimiter :=
  { per_minute := per_minute, per_day := per_day, name := name
    minute_window := [], day_window := [] }

/-- `RateLimiter._clean_windows`: pop expired timestamps from the front of
both deques (`while window and window[0] < cutoff: window.popleft()`). -/

def cleanWindows (now : ℚ) (rl : RateLimiter) : RateLimiter :=
  { rl with
    minute_window := rl.minute_window.dropWhile (fun t => decide (t < now - 60))
    day_window := rl.day_window.dropWhile (fun t => decide (t < now - 86400)) }

/-- `RateLimiter.check`: clean the windows, then admit iff both windows are
strictly below their limits.  Returns `((allowed, reason), new state)`;
the state change is the pruning performed by `_clean_windows`. -/

def RateLimiter.check (now : ℚ) (rl : RateLimiter) : (Bool × String) × RateLimiter :=
  let rl2 := cleanWindows now rl
  if rl2.minute_window.length ≥ rl2.per_minute then
    ((false, rl2.name ++ " rate limit exceeded: " ++ toString rl2.per_minute ++ "/minute"), rl2)
  else if rl2.day_window.length ≥ rl2.per_day then
    ((false, rl2.name ++ " rate limit exceeded: " ++ toString rl2.per_day ++ "/day"), rl2)
  else
    ((true, ""), rl2)

/-- `RateLimiter.record`: append the current timestamp to both windows
(deque `append` adds at the back). -/

def RateLimiter.record (now : ℚ) (rl : RateLimiter) : RateLimiter :=
  { rl with
    minute_window := rl.minute_window ++ [now]
    day_window := rl.day_window ++ [now] }

/-- `RateLimiter.status`: clean, then report usage; returned alongside the
pruned state. -/

def RateLimiter.status (now : ℚ) (rl : RateLimiter) : (Nat × Nat × Nat × Nat) × RateLimiter :=
  let rl2 := cleanWindows now rl
  ((rl2.minute_window.length, rl2.per_minute, rl2.day_window.length, rl2.per_day), rl2)

/-- Specification-side rendering of the `check` contract, written from the
spec's words (§4.1): "Before evaluating, prune both windows … if
`len(minuteWindow) ≥ perMinuteLimit`, deny with a reason naming the
per-minute bound; else if `len(dayWindow) ≥ perDayLimit`, deny with a reason
naming the per-day bound; else allow." -/

def checkSpec (now : ℚ) (rl : RateLimiter) : (Bool × String) × RateLimiter :=
  let pruned := cleanWindows now rl
  if pruned.minute_window.length ≥ rl.per_minute then
    ((false, rl.name ++ " rate limit exceeded: " ++ toString rl.per_minute ++ "/minute"), pruned)
  else if pruned.day_window.length ≥ rl.per_day then
    ((false, rl.name ++ " rate limit exceeded: " ++ toString rl.per_day ++ "/day"), pruned)
  else
    ((true, ""), pruned)

/-! Traces of `check`/`record` calls (for the sliding-window claim)

A trace is a list of timestamped limiter operations, executed sequentially
by one caller.  `runDisc` runs a trace and simultaneously checks the caller
discipline stated in the claim — "record only after check returned allowed
and at most once per admitted call", i.e. in every prefix the number of
`record` calls never exceeds the number of `check` calls that returned
allowed. -/

inductive LimiterOp where
  | checkOp
  | recordOp
deriving Repr, DecidableEq

/-- Timestamps along a trace are non-decreasing (calls happen in real time). -/

def timesMono : ℚ → List (ℚ × LimiterOp) → Bool
  | _, [] => true
  | t, (t', _) :: rest => decide (t ≤ t') && timesMono t' rest

/-- Run a trace from a state, returning the final state, the number of
admitted checks, the number of records, and whether the caller discipline
(each prefix has no more records than admitted checks) held throughout. -/

def runDisc (rl : RateLimiter) (adm rec : Nat) :
    List (ℚ × LimiterOp) → RateLimiter × Nat × Nat × Bool
  | [] => (rl, adm, rec, true)
  | (t, .checkOp) :: rest =>
    let r := RateLimiter.check t rl
    runDisc r.2 (if r.1.1 then adm + 1 else adm) rec rest
  | (t, .recordOp) :: rest =>
    let ok := decide (rec + 1 ≤ adm)
    let r := runDisc (RateLimiter.record t rl) adm (rec + 1) rest
    (r.1, r.2.1, r.2.2.1, ok && r.2.2.2)

/-- Number of timestamps of `w` lying in the trailing window `[T - δ, T]`. -/

def countIn (w : List ℚ) (T δ : ℚ) : Nat :=
  w.countP (fun s => decide (T - δ ≤ s ∧ s ≤ T))

/-! Reachable limiter states under the disciplined protocol

`Reach pm pd nm t rl hist` holds when the limiter state `rl` is reachable
at time `t` from a fresh limiter, by a sequence of `check` calls and
check-then-record pairs in which each `record` immediately follows its
admitting `check` (the amended caller discipline).  `hist` is the full
list of recorded timestamps, including those later pruned from the windows. -/

inductive Reach (pm pd : Nat) (nm : String) : ℚ → RateLimiter → List ℚ → Prop
  | init (t : ℚ) : Reach pm pd nm t (RateLimiter.init pm pd nm) []
  | step_check {t rl hist} (t' : ℚ) :
      Reach pm pd nm t rl hist → t ≤ t' →
      Reach pm pd nm t' ((RateLimiter.check t' rl).2) hist
  | step_checkRecord {t rl hist} (tc tr : ℚ) :
      Reach pm pd nm t rl hist → t ≤ tc → tc ≤ tr →
      (RateLimiter.check tc rl).1.1 = true →
      Reach pm pd nm tr (RateLimiter.record tr (RateLimiter.check tc rl).2) (hist ++ [tr])

/-! TTL cache (`src/api/main.py`, class `SearchCache`)

The Python cache is a `dict` from an md5 hex digest of the normalized query
to `(timestamp, payload)`.  The digest (`hashlib.md5(...).hexdigest()`) is
an external library call; it is modelled as an arbitrary pure function
`digest : String → String` applied to the normalized query — the code
relies on no property of md5 beyond being a pure function of its input.
The dict is modelled as an association list with unique keys (replace-on-set,
delete-by-key); the payload type is a parameter `α` (Python stores untyped
lists). -/

/-- Lower-casing of `query.lower()`, character by character, modelled on the
string's character list. -/

def lowerStr (s : String) : String := ⟨s.data.map Char.toLower⟩

/-- Whitespace trimming of `query.strip()`: drop whitespace from both ends,
modelled on the string's character list. -/

def trimStr (s : String) : String :=
  ⟨((s.data.dropWhile Char.isWhitespace).reverse.dropWhile Char.isWhitespace).reverse⟩

/-- Normalization applied before hashing: `query.lower().strip()`. -/

def normalizeQuery (q : String) : String := trimStr (lowerStr q)

/-- `SearchCache._make_key`. -/

def makeKey (digest : String → String) (q : String) : String :=
  digest (normalizeQuery q)

structure SearchCache (α : Type) where
  ttl : ℚ
  cache : List (String × ℚ × α)

/-- `key in cache` followed by `cache[key]`: first binding for `key`. -/

def lookupKey {α : Type} (key : String) : List (String × ℚ × α) → Option (ℚ × α)
  | [] => none
  | kv :: rest => if kv.1 = key then some kv.2 else lookupKey key rest

/-- `cache[key] = value` on a dict: overwrite in place, else append. -/

def insertKey {α : Type} (key : String) (v : ℚ × α) :
    List (String × ℚ × α) → List (String × ℚ × α)
  | [] => [(key, v)]
  | kv :: rest => if kv.1 = key then (key, v) :: rest else kv :: insertKey key v rest

/-- `del cache[key]` (keys are unique, so filtering is deletion). -/

def removeKey {α : Type} (key : String) (l : List (String × ℚ × α)) :
    List (String × ℚ × α) :=
  l.filter (fun kv => !(kv.1 = key : Bool))

/-- `SearchCache.get`: on a key that is present and fresh
(`now - timestamp < ttl`) return the payload unchanged; on a stale key
delete it and report absent; on an absent key report absent. -/

def SearchCache.get {α : Type} (digest : String → String) (now : ℚ) (q : String)
    (c : SearchCache α) : Option α × SearchCache α :=
  let key := makeKey digest q
  match lookupKey key c.cache with
  | none => (none, c)
  | some (ts, data) =>
    if now - ts < c.ttl then (some data, c)
    else (none, { c with cache := removeKey key c.cache })

/-- `SearchCache.set`: unconditionally (over)write the normalized key with
the current timestamp. -/

def SearchCache.set {α : Type} (digest : String → String) (now : ℚ) (q : String)
    (data : α) (c : SearchCache α) : SearchCache α :=
  { c with cache := insertKey (makeKey digest q) (now, data) c.cache }

/-- `SearchCache.clear_expired`: drop every entry with `now - ts >= ttl`. -/

def SearchCache.clearExpired {α : Type} (now : ℚ) (c : SearchCache α) : SearchCache α :=
  { c with cache := c.cache.filter (fun kv => !(decide (now - kv.2.1 ≥ c.ttl))) }

/-! Embedding similarity index (`src/data_pipeline/search_places.py`)

Python floats are modelled as real numbers, so `** 0.5` is `Real.sqrt` and
the facts proved are about the exact-arithmetic idealization of the code.
`search` in the source first embeds the query text via the external
sentence-transformer model (`model.encode`); that model is an external
collaborator (spec §1), so `search` is modelled from the query embedding on. -/

/-- `dot_product = sum(a * b for a, b in zip(vec1, vec2))`; note `zip`
truncates to the shorter vector. -/

noncomputable def dot_product (vec1 vec2 : List ℝ) : ℝ :=
  ((vec1.zip vec2).map (fun ab => ab.1 * ab.2)).sum

/-- `sum(a * a for a in vec)`, the radicand of a magnitude. -/

noncomputable def sumSquares (v : List ℝ) : ℝ := (v.map (fun a => a * a)).sum

/-- `magnitude = sum(a * a for a in vec) ** 0.5`. -/

noncomputable def magnitude (v : List ℝ) : ℝ := Real.sqrt (sumSquares v)

/-- `cosine_similarity`: dot product over the product of magnitudes, with
the division-by-zero guard `if magnitude1 == 0 or magnitude2 == 0: return 0.0`. -/

noncomputable def cosine_similarity (vec1 vec2 : List ℝ) : ℝ :=
  if magnitude vec1 = 0 ∨ magnitude vec2 = 0 then 0
  else dot_product vec1 vec2 / (magnitude vec1 * magnitude vec2)

/-- A catalog entry: opaque display data plus its embedding vector. -/

structure PlaceEntry where
  name : String
  embedding : List ℝ

/-- One search result `{"place": ..., "score": ...}`. -/

structure ScoredResult where
  place : PlaceEntry
  score : ℝ

/-- Descending-score comparator; `results.sort(key=..., reverse=True)` is a
stable descending sort, modelled by `List.mergeSort` with this comparator. -/

noncomputable def scoreGE (x y : ScoredResult) : Bool := decide (y.score ≤ x.score)

/-- The full scan of the catalog: one `{"place": ..., "score": ...}` record
per catalog entry, in catalog insertion order. -/

noncomputable def scoredList (queryEmbedding : List ℝ)
    (places : List PlaceEntry) : List ScoredResult :=
  places.map (fun p =>
    ScoredResult.mk p (cosine_similarity queryEmbedding p.embedding))

/-- `search(query, places, model, top_k)` from the point after the query is
embedded: score every place, stable-sort descending, take the top `k`. -/

noncomputable def search (queryEmbedding : List ℝ) (places : List PlaceEntry)
    (top_k : ℕ) : List ScoredResult :=
  ((scoredList queryEmbedding places).mergeSort scoreGE).take top_k

/-- Euclidean norm as the spec words it (§4.3): square root of the sum of
the squares of the components. -/

noncomputable def euclideanNorm (v : List ℝ) : ℝ :=
  Real.sqrt ((v.map (fun a => a ^ 2)).sum)

/-! Retrieval orchestration (`src/api/main.py`, `search_google_places`)

The external HTTP exchange (`http_client.post`) is modelled by a
`FetchOutcome` parameter: either a transport error (`httpx.RequestError`)
or a response carrying its status code, raw text and parsed body.  The
function returns its result (`Except` models `return` vs `raise
HTTPException`), the updated module state, and a flag recording whether the
upstream request was issued.  The several `time.time()` reads inside one
call are modelled as a single instant `now`. -/

structure GooglePlace where
  id : String
  displayName : String
  formattedAddress : String
  lat : ℚ
  lng : ℚ
  rating : Option ℚ
  userRatingCount : ℕ
  primaryType : String
  photos : List String
  priceLevel : String
deriving Repr, DecidableEq

/-- One result record in "our format". -/

structure PlaceRec where
  place_id : String
  name : String
  address : String
  lat : ℚ
  lng : ℚ
  rating : Option ℚ
  rating_count : ℕ
  category : String
  photo_url : Option String
  price_level : Option ℕ
deriving Repr, DecidableEq

/-- Does the character list start with `pat`? -/

def startsWithChars : List Char → List Char → Bool
  | [], _ => true
  | _ :: _, [] => false
  | p :: ps, c :: cs => decide (p = c) && startsWithChars ps cs

/-- Does the character list contain `pat` as a contiguous run? -/

def hasSubChars (pat : List Char) : List Char → Bool
  | [] => startsWithChars pat []
  | c :: cs => startsWithChars pat (c :: cs) || hasSubChars pat cs

/-- Python's substring test `pat in s`. -/

def strContainsSub (s pat : String) : Bool := hasSubChars pat.data s.data

/-- The `priceLevel` parse (Google returns strings like
"PRICE_LEVEL_MODERATE"), tested in the source's order. -/

def parsePriceLevel (s : String) : Option ℕ :=
  if strContainsSub s "INEXPENSIVE" then some 1
  else if strContainsSub s "MODERATE" then some 2
  else if strContainsSub s "EXPENSIVE" then some 3
  else if strContainsSub s "VERY_EXPENSIVE" then some 4
  else none

/-- Photo URL built from the first photo's resource name, if any. -/

def photoUrl (apiKey : String) (photos : List String) : Option String :=
  match photos with
  | [] => none
  | n :: _ =>
    if n = "" then none
    else some ("https://places.googleapis.com/v1/" ++ n
      ++ "/media?maxWidthPx=400&key=" ++ apiKey)

/-- The body of the per-place transformation loop. -/

def transformPlace (apiKey : String) (p : GooglePlace) : PlaceRec :=
  { place_id := p.id, name := p.displayName, address := p.formattedAddress
    lat := p.lat, lng := p.lng, rating := p.rating
    rating_count := p.userRatingCount, category := p.primaryType
    photo_url := photoUrl apiKey p.photos
    price_level := parsePriceLevel p.priceLevel }

/-- Outcome of the external HTTP POST. -/

inductive FetchOutcome where
  | transportError (msg : String)
  | httpResponse (status : ℕ) (bodyText : String) (places : List GooglePlace)

/-- The module-level mutable state touched by `search_google_places`. -/

structure AppState where
  places_cache : SearchCache (List PlaceRec)
  google_limiter : RateLimiter

/-- `raise HTTPException(status_code, detail)`. -/

structure HttpError where
  status_code : ℕ
  detail : String
deriving Repr, DecidableEq

/-- Did the call return normally (`Except.ok`) rather than raise? -/

def exceptSucceeded {ε α : Type} : Except ε α → Bool
  | .ok _ => true
  | .error _ => false

/-- `search_google_places(query, max_results)`: cache lookup first (a hit
returns the cached payload truncated to `max_results` with no limiter
interaction); on a miss, the limiter gates the upstream POST; once a
response arrives `record` is called, then a non-200 status raises 502,
otherwise the transformed results are cached and returned.  The final
`Bool` records whether the POST was issued. -/

def search_google_places (digest : String → String) (apiKey : String)
    (now : ℚ) (fetch : FetchOutcome) (query : String) (max_results : ℕ)
    (st : AppState) : Except HttpError (List PlaceRec) × AppState × Bool :=
  match (SearchCache.get digest now query st.places_cache).1 with
  | some data =>
    (Except.ok (data.take max_results),
     ⟨(SearchCache.get digest now query st.places_cache).2, st.google_limiter⟩,
     false)
  | none =>
    if (RateLimiter.check now st.google_limiter).1.1 = false then
      (Except.error ⟨429, (RateLimiter.check now st.google_limiter).1.2⟩,
       ⟨(SearchCache.get digest now query st.places_cache).2,
        (RateLimiter.check now st.google_limiter).2⟩,
       false)
    else
      match fetch with
      | .transportError msg =>
        (Except.error ⟨502, "Failed to reach Google Places API: " ++ msg⟩,
         ⟨(SearchCache.get digest now query st.places_cache).2,
          (RateLimiter.check now st.google_limiter).2⟩,
         true)
      | .httpResponse status bodyText places =>
        if status ≠ 200 then
          (Except.error ⟨502, "Google Places API error: " ++ toString status
             ++ " - " ++ bodyText⟩,
           ⟨(SearchCache.get digest now query st.places_cache).2,
            RateLimiter.record now (RateLimiter.check now st.google_limiter).2⟩,
           true)
        else
          (Except.ok (places.map (transformPlace apiKey)),
           ⟨SearchCache.set digest now query (places.map (transformPlace apiKey))
              (SearchCache.get digest now query st.places_cache).2,
            RateLimiter.record now (RateLimiter.check now st.google_limiter).2⟩,
           true)

theorem cleanWindows_per_minute (now : ℚ) (rl : RateLimiter) :
    (cleanWindows now rl).per_minute = rl.per_minute := rfl

theorem cleanWindows_per_day (now : ℚ) (rl : RateLimiter) :
    (cleanWindows now rl).per_day = rl.per_day := rfl

theorem cleanWindows_name (now : ℚ) (rl : RateLimiter) :
    (cleanWindows now rl).name = rl.name := rfl

theorem check_state_eq (now : ℚ) (rl : RateLimiter) :
    (RateLimiter.check now rl).2 = cleanWindows now rl := by
  unfold RateLimiter.check
  simp only []
  split
  · rfl
  · split <;> rfl

/-- C2. `check()` first prunes both windows, then denies (naming the
per-minute bound) when the pruned minute window has reached `per_minute`,
else denies (naming the per-day bound) when the pruned day window has
reached `per_day`, else allows; in particular a limit of 0 denies every
call, and a pruned window whose length exactly equals its limit is denied,
not allowed. -/

theorem check_matches_spec (now : ℚ) (rl : RateLimiter) :
    RateLimiter.check now rl = checkSpec now rl ∧
    (rl.per_minute = 0 → (RateLimiter.check now rl).1.1 = false) ∧
    (rl.per_day = 0 → (RateLimiter.check now rl).1.1 = false) ∧
    ((cleanWindows now rl).minute_window.length = rl.per_minute →
      (RateLimiter.check now rl).1.1 = false) ∧
    ((cleanWindows now rl).day_window.length = rl.per_day →
      (RateLimiter.check now rl).1.1 = false) := by
  refine ⟨rfl, ?_, ?_, ?_, ?_⟩
  · intro h0
    unfold RateLimiter.check
    have : (cleanWindows now rl).minute_window.length ≥ (cleanWindows now rl).per_minute := by
      rw [cleanWindows_per_minute, h0]; exact Nat.zero_le _
    simp only [this, ge_iff_le, if_pos]
  · intro h0
    unfold RateLimiter.check
    by_cases hm : (cleanWindows now rl).minute_window.length ≥ (cleanWindows now rl).per_minute
    · simp only [ge_iff_le] at hm ⊢; rw [if_pos hm]
    · have hd : (cleanWindows now rl).day_window.length ≥ (cleanWindows now rl).per_day := by
        rw [cleanWindows_per_day, h0]; exact Nat.zero_le _
      simp only [ge_iff_le] at hm hd ⊢
      rw [if_neg hm, if_pos hd]
  · intro heq
    unfold RateLimiter.check
    have : (cleanWindows now rl).minute_window.length ≥ (cleanWindows now rl).per_minute := by
      rw [cleanWindows_per_minute, ← heq]
    simp only [this, ge_iff_le, if_pos]
  · intro heq
    unfold RateLimiter.check
    by_cases hm : (cleanWindows now rl).minute_window.length ≥ (cleanWindows now rl).per_minute
    · simp only [ge_iff_le] at hm ⊢; rw [if_pos hm]
    · have hd : (cleanWindows now rl).day_window.length ≥ (cleanWindows now rl).per_day := by
        rw [cleanWindows_per_day, ← heq]
      simp only [ge_iff_le] at hm hd ⊢
      rw [if_neg hm, if_pos hd]

/-- Witness for `check_matches_spec`: a limiter with `per_minute = 0` denies,
and a pruned window exactly at its limit denies. -/

theorem check_matches_spec_witness :
    (RateLimiter.init 0 10 "g").per_minute = 0 ∧
    (RateLimiter.check 5 (RateLimiter.init 0 10 "g")).1.1 = false := by
  refine ⟨rfl, ?_⟩
  exact (check_matches_spec 5 (RateLimiter.init 0 10 "g")).2.1 rfl

/-- C1 counterexample.  Under the claim's caller discipline as stated
(record only after an allowed check, at most once per admitted call), the
window bound fails: with `per_minute = 1`, the trace
check–check–record–record satisfies the discipline (two admitted checks,
two records) and is monotone in time, yet leaves two recorded timestamps
inside the trailing 60-second window `[-60, 0]`. -/

theorem sliding_window_bound_counterexample :
    timesMono 0 [((0 : ℚ), LimiterOp.checkOp), (0, LimiterOp.checkOp),
      (0, LimiterOp.recordOp), (0, LimiterOp.recordOp)] = true ∧
    (runDisc (RateLimiter.init 1 100 "g") 0 0
      [((0 : ℚ), LimiterOp.checkOp), (0, LimiterOp.checkOp),
       (0, LimiterOp.recordOp), (0, LimiterOp.recordOp)]).2.2.2 = true ∧
    ¬ (countIn (runDisc (RateLimiter.init 1 100 "g") 0 0
        [((0 : ℚ), LimiterOp.checkOp), (0, LimiterOp.checkOp),
         (0, LimiterOp.recordOp), (0, LimiterOp.recordOp)]).1.minute_window 0 60
        ≤ (RateLimiter.init 1 100 "g").per_minute) := by
  refine ⟨by norm_num [timesMono], by decide, ?_⟩
  have hw : (runDisc (RateLimiter.init 1 100 "g") 0 0
      [((0 : ℚ), LimiterOp.checkOp), (0, LimiterOp.checkOp),
       (0, LimiterOp.recordOp), (0, LimiterOp.recordOp)]).1.minute_window = [0, 0] := rfl
  rw [hw]
  norm_num [countIn, List.countP_cons, RateLimiter.init]

theorem countIn_le_length (w : List ℚ) (T δ : ℚ) : countIn w T δ ≤ w.length := by
  unfold countIn
  exact List.countP_le_length _

/-- Pruning the front of a window does not change how many of its timestamps
lie in a trailing window ending at `T ≥ t'`: every pruned timestamp is
older than `t' - δ ≤ T - δ`. -/

theorem countIn_dropWhile (w : List ℚ) (t' T δ : ℚ) (h : t' ≤ T) :
    countIn (w.dropWhile (fun s => decide (s < t' - δ))) T δ = countIn w T δ := by
  conv_rhs => rw [← List.takeWhile_append_dropWhile
    (p := fun s => decide (s < t' - δ)) (l := w)]
  unfold countIn
  rw [List.countP_append]
  have hz : (w.takeWhile (fun s => decide (s < t' - δ))).countP
      (fun s => decide (T - δ ≤ s ∧ s ≤ T)) = 0 := by
    rw [List.countP_eq_zero]
    intro s hs
    have hlt : s < t' - δ := by
      have := List.mem_takeWhile_imp hs
      simpa using this
    simp only [decide_eq_true_eq, not_and]
    intro hle
    exact absurd hle (not_le.mpr (lt_of_lt_of_le hlt (by linarith)))
  omega

/-- From an allowed `check`, both pruned windows are strictly below their
limits. -/

theorem check_allowed_lt (now : ℚ) (rl : RateLimiter)
    (h : (RateLimiter.check now rl).1.1 = true) :
    (cleanWindows now rl).minute_window.length < rl.per_minute ∧
    (cleanWindows now rl).day_window.length < rl.per_day := by
  unfold RateLimiter.check at h
  simp only [] at h
  split at h
  · exact absurd h (by simp)
  · split at h
    · exact absurd h (by simp)
    · constructor
      · have := not_le.mp (by assumption : ¬ (cleanWindows now rl).minute_window.length ≥
          (cleanWindows now rl).per_minute)
        simpa [cleanWindows_per_minute] using this
      · have := not_le.mp (by assumption : ¬ (cleanWindows now rl).day_window.length ≥
          (cleanWindows now rl).per_day)
        simpa [cleanWindows_per_day] using this

theorem record_minute (now : ℚ) (rl : RateLimiter) :
    (RateLimiter.record now rl).minute_window = rl.minute_window ++ [now] := rfl

theorem record_day (now : ℚ) (rl : RateLimiter) :
    (RateLimiter.record now rl).day_window = rl.day_window ++ [now] := rfl

/-- Strengthened invariant for reachable states: (a) the full recorded
history respects both window bounds at every `T`; (b) for `T` at or after
the current time, the live windows count exactly the same timestamps as the
history; (c) the configured limits are preserved. -/

theorem reach_invariant {pm pd : Nat} {nm : String} {t : ℚ} {rl : RateLimiter}
    {hist : List ℚ} (h : Reach pm pd nm t rl hist) :
    (∀ T : ℚ, countIn hist T 60 ≤ pm ∧ countIn hist T 86400 ≤ pd) ∧
    (∀ T : ℚ, t ≤ T →
      countIn hist T 60 = countIn rl.minute_window T 60 ∧
      countIn hist T 86400 = countIn rl.day_window T 86400) ∧
    rl.per_minute = pm ∧ rl.per_day = pd := by
  induction h with
  | init t =>
    refine ⟨fun T => ⟨Nat.zero_le _, Nat.zero_le _⟩, fun T _ => ⟨rfl, rfl⟩, rfl, rfl⟩
  | step_check t' hreach hle ih =>
    obtain ⟨hbound, heq, hpm, hpd⟩ := ih
    rw [check_state_eq]
    refine ⟨hbound, ?_, by simpa [cleanWindows_per_minute] using hpm,
      by simpa [cleanWindows_per_day] using hpd⟩
    intro T hT
    have hT' : _ ≤ T := le_trans hle hT
    obtain ⟨hm, hd⟩ := heq T hT'
    constructor
    · rw [hm]
      exact (countIn_dropWhile _ t' T 60 hT).symm
    · rw [hd]
      exact (countIn_dropWhile _ t' T 86400 hT).symm
  | step_checkRecord tc tr hreach hle1 hle2 hallow ih =>
    obtain ⟨hbound, heq, hpm, hpd⟩ := ih
    rename_i t rl hist
    have hlt := check_allowed_lt tc rl hallow
    have hcountm : ∀ T : ℚ, tr ≤ T → countIn hist T 60 =
        countIn (cleanWindows tc rl).minute_window T 60 := by
      intro T hT
      have htcT : tc ≤ T := le_trans hle2 hT
      have := (heq T (le_trans hle1 htcT)).1
      rw [this]
      exact (countIn_dropWhile _ tc T 60 htcT).symm
    have hcountd : ∀ T : ℚ, tr ≤ T → countIn hist T 86400 =
        countIn (cleanWindows tc rl).day_window T 86400 := by
      intro T hT
      have htcT : tc ≤ T := le_trans hle2 hT
      have := (heq T (le_trans hle1 htcT)).2
      rw [this]
      exact (countIn_dropWhile _ tc T 86400 htcT).symm
    have happm : ∀ w T δ, countIn (w ++ [tr]) T δ =
        countIn w T δ + countIn [tr] T δ := by
      intro w T δ; unfold countIn; rw [List.countP_append]
    refine ⟨?_, ?_, ?_, ?_⟩
    · intro T
      constructor
      · rw [happm hist]
        by_cases hin : T - 60 ≤ tr ∧ tr ≤ T
        · have h1 : countIn [tr] T 60 = 1 := by
            unfold countIn
            have hd : decide (T - 60 ≤ tr ∧ tr ≤ T) = true := decide_eq_true hin
            simp [List.countP_cons, hd]
            exact ⟨by linarith [hin.1], hin.2⟩
          rw [h1]
          have h2 : countIn hist T 60 = countIn (cleanWindows tc rl).minute_window T 60 :=
            hcountm T hin.2
          have h3 : countIn (cleanWindows tc rl).minute_window T 60 ≤
              (cleanWindows tc rl).minute_window.length := countIn_le_length _ _ _
          have h4 := hlt.1
          omega
        · have h1 : countIn [tr] T 60 = 0 := by
            unfold countIn
            have hd : decide (T - 60 ≤ tr ∧ tr ≤ T) = false := decide_eq_false hin
            simp [List.countP_cons, hd]
            intro hle
            by_contra hc
            push_neg at hc
            exact hin ⟨by linarith, hc⟩
          rw [h1]
          have := (hbound T).1
          omega
      · rw [happm hist]
        by_cases hin : T - 86400 ≤ tr ∧ tr ≤ T
        · have h1 : countIn [tr] T 86400 = 1 := by
            unfold countIn
            have hd : decide (T - 86400 ≤ tr ∧ tr ≤ T) = true := decide_eq_true hin
            simp [List.countP_cons, hd]
            exact ⟨by linarith [hin.1], hin.2⟩
          rw [h1]
          have h2 : countIn hist T 86400 = countIn (cleanWindows tc rl).day_window T 86400 :=
            hcountd T hin.2
          have h3 : countIn (cleanWindows tc rl).day_window T 86400 ≤
              (cleanWindows tc rl).day_window.length := countIn_le_length _ _ _
          have h4 := hlt.2
          omega
        · have h1 : countIn [tr] T 86400 = 0 := by
            unfold countIn
            have hd : decide (T - 86400 ≤ tr ∧ tr ≤ T) = false := decide_eq_false hin
            simp [List.countP_cons, hd]
            intro hle
            by_contra hc
            push_neg at hc
            exact hin ⟨by linarith, hc⟩
          rw [h1]
          have := (hbound T).2
          omega
    · intro T hT
      rw [check_state_eq, record_minute, record_day]
      constructor
      · rw [happm hist, happm]
        rw [hcountm T hT]
      · rw [happm hist, happm]
        rw [hcountd T hT]
    · rw [check_state_eq]
      exact hpm
    · rw [check_state_eq]
      exact hpd

/-- C1 (amended).  For every sequence of `check`/`record` calls in which
each `record` immediately follows (with no intervening limiter call) a
`check` that returned allowed — one record per admitted check — the
recorded timestamps never number more than `per_minute` within any trailing
60-second window `[T-60, T]`, nor more than `per_day` within any trailing
86400-second window. -/

theorem sliding_window_bound {pm pd : Nat} {nm : String} {t : ℚ}
    {rl : RateLimiter} {hist : List ℚ} (h : Reach pm pd nm t rl hist) (T : ℚ) :
    countIn hist T 60 ≤ pm ∧ countIn hist T 86400 ≤ pd :=
  (reach_invariant h).1 T

/-- Witness for `sliding_window_bound`: one admitted check-then-record step
from a fresh limiter, examined at `T = 5`. -/

theorem sliding_window_bound_witness :
    (RateLimiter.check 0 (RateLimiter.init 2 100 "g")).1.1 = true ∧
    countIn [(1 : ℚ)] 5 60 ≤ 2 ∧ countIn [(1 : ℚ)] 5 86400 ≤ 100 := by
  have hstep : Reach 2 100 "g" 1
      (RateLimiter.record 1 (RateLimiter.check 0 (RateLimiter.init 2 100 "g")).2)
      ([] ++ [(1 : ℚ)]) :=
    Reach.step_checkRecord 0 1 (Reach.init 0) (by norm_num) (by norm_num) (by decide)
  have := sliding_window_bound hstep 5
  exact ⟨by decide, by simpa using this.1, by simpa using this.2⟩

theorem lookupKey_insertKey_self {α : Type} (key : String) (v : ℚ × α)
    (l : List (String × ℚ × α)) : lookupKey key (insertKey key v l) = some v := by
  induction l with
  | nil => simp [insertKey, lookupKey]
  | cons kv rest ih =>
    unfold insertKey
    by_cases h : kv.1 = key
    · simp [h, lookupKey]
    · simp only [h, if_false]
      unfold lookupKey
      simp [h, ih]

theorem lookupKey_removeKey_self {α : Type} (key : String)
    (l : List (String × ℚ × α)) : lookupKey key (removeKey key l) = none := by
  induction l with
  | nil => simp [removeKey, lookupKey]
  | cons kv rest ih =>
    unfold removeKey at ih ⊢
    by_cases h : kv.1 = key
    · simpa [List.filter, h] using ih
    · simpa [List.filter, h, lookupKey] using ih

theorem lookupKey_filter_none {α : Type} (key : String) (p : String × ℚ × α → Bool)
    (l : List (String × ℚ × α)) (h : lookupKey key l = none) :
    lookupKey key (l.filter p) = none := by
  induction l with
  | nil => simp [lookupKey]
  | cons kv rest ih =>
    unfold lookupKey at h
    by_cases hk : kv.1 = key
    · simp [hk] at h
    · simp only [hk, if_false] at h
      by_cases hp : p kv
      · simpa [List.filter, hp, lookupKey, hk] using ih h
      · simpa [List.filter, hp] using ih h

/-- C4. After `set(q, v)` at time `t₁`, a `get(q')` at time `t₂` for any
`q'` normalization-equivalent to `q` (equal after lower-casing and trimming)
returns `v`, and leaves the cache unchanged, whenever the elapsed time
`t₂ - t₁` is strictly below the ttl. -/

theorem cache_round_trip {α : Type} (digest : String → String)
    (c : SearchCache α) (q q' : String) (v : α) (t1 t2 : ℚ)
    (hnorm : normalizeQuery q' = normalizeQuery q)
    (hfresh : t2 - t1 < c.ttl) :
    SearchCache.get digest t2 q' (SearchCache.set digest t1 q v c)
      = (some v, SearchCache.set digest t1 q v c) := by
  unfold SearchCache.get SearchCache.set
  have hkey : makeKey digest q' = makeKey digest q := by
    unfold makeKey; rw [hnorm]
  rw [hkey]
  simp only [lookupKey_insertKey_self]
  rw [if_pos hfresh]

/-- Witness for `cache_round_trip`: the spec's own scenario —
`set("Austin BBQ", v)` then `get("austin bbq ")` 10 seconds later with
`ttl = 1800` returns `v`. -/

theorem cache_round_trip_witness :
    normalizeQuery "austin bbq " = normalizeQuery "Austin BBQ" ∧
    ((10 : ℚ) - 0 < (1800 : ℚ)) ∧
    SearchCache.get id 10 "austin bbq "
        (SearchCache.set id 0 "Austin BBQ" ([42] : List ℕ) ⟨1800, []⟩)
      = (some [42], SearchCache.set id 0 "Austin BBQ" ([42] : List ℕ) ⟨1800, []⟩) := by
  refine ⟨by decide, by norm_num, ?_⟩
  exact cache_round_trip id ⟨1800, []⟩ "Austin BBQ" "austin bbq " [42] 0 10
    (by decide) (by norm_num)

/-- C5. If the entry stored under `q`'s normalized key has age `≥ ttl`
at the time of `get(q)`, then `get(q)` reports absent and removes the entry
(the stale payload is never returned), and a subsequent `clearExpired` finds
nothing under that key — it is a no-op for that key. -/

theorem cache_expiry {α : Type} (digest : String → String)
    (c : SearchCache α) (q : String) (ts t t' : ℚ) (data : α)
    (hfound : lookupKey (makeKey digest q) c.cache = some (ts, data))
    (hstale : t - ts ≥ c.ttl) :
    (SearchCache.get digest t q c).1 = none ∧
    lookupKey (makeKey digest q) (SearchCache.get digest t q c).2.cache = none ∧
    lookupKey (makeKey digest q)
      (SearchCache.clearExpired t' (SearchCache.get digest t q c).2).cache = none := by
  unfold SearchCache.get
  simp only [hfound]
  rw [if_neg (not_lt.mpr hstale)]
  refine ⟨rfl, ?_, ?_⟩
  · exact lookupKey_removeKey_self _ _
  · unfold SearchCache.clearExpired
    exact lookupKey_filter_none _ _ _ (lookupKey_removeKey_self _ _)

/-- Witness for `cache_expiry`: an entry written at time 0 and read at time
2000 with `ttl = 1800` is reported absent and evicted. -/

theorem cache_expiry_witness :
    lookupKey (makeKey id "bbq") (SearchCache.set id 0 "bbq" ([7] : List ℕ) ⟨1800, []⟩).cache
      = some (0, [7]) ∧
    ((2000 : ℚ) - 0 ≥ (1800 : ℚ)) ∧
    (SearchCache.get id 2000 "bbq"
      (SearchCache.set id 0 "bbq" ([7] : List ℕ) ⟨1800, []⟩)).1 = none := by
  refine ⟨by decide, by norm_num, ?_⟩
  exact (cache_expiry id (SearchCache.set id 0 "bbq" ([7] : List ℕ) ⟨1800, []⟩)
    "bbq" 0 2000 0 [7] (by decide) (by norm_num [SearchCache.set])).1

theorem sumSquares_nonneg (v : List ℝ) : 0 ≤ sumSquares v := by
  unfold sumSquares
  induction v with
  | nil => simp
  | cons a as ih =>
    simp only [List.map_cons, List.sum_cons]
    nlinarith [mul_self_nonneg a]

theorem sumSquares_cons (a : ℝ) (as : List ℝ) :
    sumSquares (a :: as) = a * a + sumSquares as := by
  simp [sumSquares]

theorem magnitude_eq_euclideanNorm (v : List ℝ) : magnitude v = euclideanNorm v := by
  unfold magnitude euclideanNorm sumSquares
  have h : (fun a : ℝ => a * a) = fun a : ℝ => a ^ 2 := by
    funext a; ring
  rw [h]

theorem magnitude_nonneg (v : List ℝ) : 0 ≤ magnitude v := Real.sqrt_nonneg _

theorem sq_magnitude (v : List ℝ) : magnitude v * magnitude v = sumSquares v :=
  Real.mul_self_sqrt (sumSquares_nonneg v)

/-- Cauchy–Schwarz for the source's zip-truncated dot product: it holds even
for vectors of different lengths, because the truncated dot product only
drops squares from the magnitudes. -/

theorem dot_product_sq_le (v1 v2 : List ℝ) :
    dot_product v1 v2 * dot_product v1 v2 ≤ sumSquares v1 * sumSquares v2 := by
  induction v1 generalizing v2 with
  | nil =>
    simp only [dot_product, List.zip_nil_left, List.map_nil, List.sum_nil, mul_zero]
    exact mul_nonneg (sumSquares_nonneg []) (sumSquares_nonneg v2)
  | cons a as ih =>
    cases v2 with
    | nil =>
      simp only [dot_product, List.zip_nil_right, List.map_nil, List.sum_nil, mul_zero]
      exact mul_nonneg (sumSquares_nonneg _) (sumSquares_nonneg [])
    | cons b bs =>
      have hdot : dot_product (a :: as) (b :: bs) = a * b + dot_product as bs := by
        simp [dot_product]
      have hX := sumSquares_nonneg as
      have hY := sumSquares_nonneg bs
      have hIH := ih bs
      rw [hdot, sumSquares_cons, sumSquares_cons]
      set D := dot_product as bs
      set X := sumSquares as
      set Y := sumSquares bs
      have key : a * a * Y + b * b * X ≥ 2 * (a * b) * D := by
        have husq : (a * a * Y + b * b * X) * (a * a * Y + b * b * X) ≥
            (2 * (a * b) * D) * (2 * (a * b) * D) := by
          nlinarith [sq_nonneg (a * a * Y - b * b * X), sq_nonneg (a * b),
            mul_nonneg hX hY]
        have hnn : 0 ≤ a * a * Y + b * b * X :=
          add_nonneg (mul_nonneg (mul_self_nonneg a) hY)
            (mul_nonneg (mul_self_nonneg b) hX)
        nlinarith [husq, hnn]
      nlinarith [key, hIH]

theorem abs_dot_product_le (v1 v2 : List ℝ) :
    |dot_product v1 v2| ≤ magnitude v1 * magnitude v2 := by
  have h1 : |dot_product v1 v2| * |dot_product v1 v2| ≤
      (magnitude v1 * magnitude v2) * (magnitude v1 * magnitude v2) := by
    have : (magnitude v1 * magnitude v2) * (magnitude v1 * magnitude v2)
        = sumSquares v1 * sumSquares v2 := by
      rw [show (magnitude v1 * magnitude v2) * (magnitude v1 * magnitude v2)
        = (magnitude v1 * magnitude v1) * (magnitude v2 * magnitude v2) by ring,
        sq_magnitude, sq_magnitude]
    rw [this, abs_mul_abs_self]
    exact dot_product_sq_le v1 v2
  have h2 : 0 ≤ magnitude v1 * magnitude v2 :=
    mul_nonneg (magnitude_nonneg v1) (magnitude_nonneg v2)
  nlinarith [abs_nonneg (dot_product v1 v2), h1, h2]

/-- C7. If either argument has zero magnitude — in particular when it is
an all-zero vector — `cosine_similarity` returns exactly `0`: the guard
makes the division branch unreachable, so no invalid numeric state (NaN)
can arise from a zero denominator. -/

theorem cosine_similarity_zero_guard (v1 v2 : List ℝ) (n m : ℕ)
    (h : magnitude v1 = 0 ∨ magnitude v2 = 0) :
    cosine_similarity v1 v2 = 0 ∧
    cosine_similarity (List.replicate n 0) v2 = 0 ∧
    cosine_similarity v1 (List.replicate m 0) = 0 := by
  have hz : ∀ k : ℕ, magnitude (List.replicate k (0 : ℝ)) = 0 := by
    intro k
    have : sumSquares (List.replicate k (0 : ℝ)) = 0 := by
      induction k with
      | zero => simp [sumSquares]
      | succ k ih => rw [List.replicate_succ, sumSquares_cons, ih]; ring
    rw [magnitude, this, Real.sqrt_zero]
  refine ⟨?_, ?_, ?_⟩
  · unfold cosine_similarity
    rw [if_pos h]
  · unfold cosine_similarity
    rw [if_pos (Or.inl (hz n))]
  · unfold cosine_similarity
    rw [if_pos (Or.inr (hz m))]

/-- Witness for `cosine_similarity_zero_guard`: the all-zero vector
`[0, 0]` against `[1, 2]` scores exactly `0`. -/

theorem cosine_similarity_zero_guard_witness :
    (magnitude [(0 : ℝ), 0] = 0 ∨ magnitude [(1 : ℝ), 2] = 0) ∧
    cosine_similarity [(0 : ℝ), 0] [(1 : ℝ), 2] = 0 := by
  have hm : magnitude [(0 : ℝ), 0] = 0 := by
    have : sumSquares [(0 : ℝ), 0] = 0 := by norm_num [sumSquares]
    rw [magnitude, this, Real.sqrt_zero]
  exact ⟨Or.inl hm,
    (cosine_similarity_zero_guard [(0 : ℝ), 0] [(1 : ℝ), 2] 0 0 (Or.inl hm)).1⟩

/-- C8. For equal-length vectors, `cosine_similarity` is the dot product
divided by the product of the Euclidean norms (or `0` when a norm vanishes),
and the result always lies in `[-1, 1]`. -/

theorem cosine_similarity_bounds (v1 v2 : List ℝ)
    (hlen : v1.length = v2.length) :
    cosine_similarity v1 v2 =
      (if euclideanNorm v1 = 0 ∨ euclideanNorm v2 = 0 then 0
       else dot_product v1 v2 / (euclideanNorm v1 * euclideanNorm v2)) ∧
    -1 ≤ cosine_similarity v1 v2 ∧ cosine_similarity v1 v2 ≤ 1 := by
  refine ⟨by rw [cosine_similarity, magnitude_eq_euclideanNorm v1,
    magnitude_eq_euclideanNorm v2], ?_⟩
  unfold cosine_similarity
  by_cases h : magnitude v1 = 0 ∨ magnitude v2 = 0
  · rw [if_pos h]; norm_num
  · rw [if_neg h]
    push_neg at h
    have h1 : 0 < magnitude v1 := lt_of_le_of_ne (magnitude_nonneg v1) (Ne.symm h.1)
    have h2 : 0 < magnitude v2 := lt_of_le_of_ne (magnitude_nonneg v2) (Ne.symm h.2)
    have hpos : 0 < magnitude v1 * magnitude v2 := mul_pos h1 h2
    have habs := abs_dot_product_le v1 v2
    rw [abs_le] at habs
    constructor
    · rw [le_div_iff hpos]; linarith [habs.1]
    · rw [div_le_one hpos]; exact habs.2

/-- Witness for `cosine_similarity_bounds`: orthogonal unit vectors of equal
length. -/

theorem cosine_similarity_bounds_witness :
    ([(1 : ℝ), 0].length = [(0 : ℝ), 1].length) ∧
    (-1 ≤ cosine_similarity [(1 : ℝ), 0] [(0 : ℝ), 1] ∧
     cosine_similarity [(1 : ℝ), 0] [(0 : ℝ), 1] ≤ 1) :=
  ⟨rfl, (cosine_similarity_bounds [(1 : ℝ), 0] [(0 : ℝ), 1] rfl).2⟩

theorem scoreGE_trans (a b c : ScoredResult) :
    scoreGE a b → scoreGE b c → scoreGE a c := by
  simp only [scoreGE, decide_eq_true_eq]
  intro hab hbc
  exact le_trans hbc hab

theorem scoreGE_total (a b : ScoredResult) : scoreGE a b || scoreGE b a := by
  simp only [scoreGE]
  rcases le_total a.score b.score with h | h
  · simp [h]
  · simp [h]

/-- C3. For every catalog, query vector and `k`: `search` returns the
first `k` elements of the stable descending sort of the full scan (and so
has length `min k n`); every returned score is the cosine similarity of the
query with that entry's embedding; the sorted full scan is a permutation of
the scan of every catalog entry; scores are non-increasing along the
returned sequence; entries with equal scores keep catalog insertion order
(the sorted scan filtered to any score equals the in-order scan so
filtered); and repeated calls return the identical sequence. -/

theorem search_spec (q : List ℝ) (places : List PlaceEntry) (k : ℕ) :
    search q places k = ((scoredList q places).mergeSort scoreGE).take k ∧
    (search q places k).length = min k places.length ∧
    (search q places k).Forall
      (fun r => r.score = cosine_similarity q r.place.embedding) ∧
    List.Perm ((scoredList q places).mergeSort scoreGE) (scoredList q places) ∧
    (search q places k).Pairwise (fun a b => b.score ≤ a.score) ∧
    (∀ s : ℝ,
      ((scoredList q places).mergeSort scoreGE).filter
          (fun r => decide (r.score = s)) =
        (scoredList q places).filter (fun r => decide (r.score = s))) ∧
    search q places k = search q places k := by
  refine ⟨rfl, ?_, ?_, List.mergeSort_perm _ _, ?_, ?_, rfl⟩
  · simp [search, scoredList]
  · rw [List.forall_iff_forall_mem]
    intro r hr
    have h1 : r ∈ (scoredList q places).mergeSort scoreGE :=
      List.mem_of_mem_take hr
    have h2 : r ∈ scoredList q places := List.mem_mergeSort.mp h1
    obtain ⟨p, hp, rfl⟩ := List.mem_map.mp h2
    rfl
  · have hs := List.sorted_mergeSort scoreGE_trans scoreGE_total
      (scoredList q places)
    have hs' : ((scoredList q places).mergeSort scoreGE).Pairwise
        (fun a b => b.score ≤ a.score) :=
      hs.imp (fun h => by simpa [scoreGE] using h)
    exact hs'.sublist (List.take_sublist _ _)
  · intro s
    have hsubl : List.Sublist
        ((scoredList q places).filter (fun r => decide (r.score = s)))
        ((scoredList q places).mergeSort scoreGE) := by
      apply List.sublist_mergeSort scoreGE_trans scoreGE_total
      · apply List.pairwise_of_forall_mem_list
        intro a ha b hb
        have ha' := (List.mem_filter.mp ha).2
        have hb' := (List.mem_filter.mp hb).2
        simp only [decide_eq_true_eq] at ha' hb'
        simp [scoreGE, ha', hb']
      · exact List.filter_sublist _
    have hperm : List.Perm
        (((scoredList q places).mergeSort scoreGE).filter
          (fun r => decide (r.score = s)))
        ((scoredList q places).filter (fun r => decide (r.score = s))) :=
      (List.mergeSort_perm _ _).filter _
    have hcf : ((scoredList q places).filter
          (fun r => decide (r.score = s))).filter
          (fun r => decide (r.score = s))
        = (scoredList q places).filter (fun r => decide (r.score = s)) := by
      rw [List.filter_eq_self]
      intro a ha
      exact (List.mem_filter.mp ha).2
    have hsf : List.Sublist
        ((scoredList q places).filter (fun r => decide (r.score = s)))
        (((scoredList q places).mergeSort scoreGE).filter
          (fun r => decide (r.score = s))) := by
      have h := List.Sublist.filter (fun r => decide (r.score = s)) hsubl
      rwa [hcf] at h
    exact (hsf.eq_of_length hperm.length_eq.symm).symm

/-- C6 counterexample.  A query vector of length 2 against a catalog
embedding of length 1 is not rejected: `cosine_similarity` silently returns
the finite value 3/5 (dot product over the zipped common prefix, magnitudes
over the full vectors) and `search` succeeds, returning the entry scored
with that value. -/

theorem dimension_mismatch_counterexample :
    cosine_similarity [(3 : ℝ), 4] [(1 : ℝ)] = 3 / 5 ∧
    search [(3 : ℝ), 4] [PlaceEntry.mk "x" [1]] 2
      = [ScoredResult.mk (PlaceEntry.mk "x" [1]) (3 / 5)] := by
  have hm1 : magnitude [(3 : ℝ), 4] = 5 := by
    have h : sumSquares [(3 : ℝ), 4] = 25 := by norm_num [sumSquares]
    rw [magnitude, h, show (25 : ℝ) = 5 ^ 2 by norm_num,
      Real.sqrt_sq (by norm_num : (0 : ℝ) ≤ 5)]
  have hm2 : magnitude [(1 : ℝ)] = 1 := by
    have h : sumSquares [(1 : ℝ)] = 1 := by norm_num [sumSquares]
    rw [magnitude, h, Real.sqrt_one]
  have hguard : ¬ (magnitude [(3 : ℝ), 4] = 0 ∨ magnitude [(1 : ℝ)] = 0) := by
    rw [hm1, hm2]; norm_num
  have hd : dot_product [(3 : ℝ), 4] [(1 : ℝ)] = 3 := by
    norm_num [dot_product]
  have hcos : cosine_similarity [(3 : ℝ), 4] [(1 : ℝ)] = 3 / 5 := by
    unfold cosine_similarity
    rw [if_neg hguard, hd, hm1, hm2]
    norm_num
  refine ⟨hcos, ?_⟩
  unfold search scoredList
  simp [hcos]

/-- C6 (amended).  A dimension mismatch between the query vector and a
catalog embedding is not detected: the dot product silently truncates to
the common prefix of the two vectors (`zip`), each magnitude is taken over
its full vector, and `search` succeeds on any dimensions, returning
`min k n` results. -/

theorem dimension_mismatch_not_detected (v1 v2 q : List ℝ)
    (places : List PlaceEntry) (k : ℕ) :
    dot_product v1 v2 = dot_product (v1.take v2.length) (v2.take v1.length) ∧
    (search q places k).length = min k places.length := by
  constructor
  · induction v1 generalizing v2 with
    | nil => simp [dot_product]
    | cons a as ih =>
      cases v2 with
      | nil => simp [dot_product]
      | cons b bs =>
        have h1 : dot_product (a :: as) (b :: bs) = a * b + dot_product as bs := by
          simp [dot_product]
        have h2 : dot_product (a :: as.take bs.length) (b :: bs.take as.length)
            = a * b + dot_product (as.take bs.length) (bs.take as.length) := by
          simp [dot_product]
        simp only [List.length_cons, List.take_succ_cons, h1, h2, ih bs]
  · simp [search, scoredList]

/-- C10. When the normalized query is present and fresh in the cache
with payload `p`, `search_google_places(query, m)` returns exactly the first
`min(m, len(p))` elements of `p` (the whole of `p` when `len(p) < m` — no
re-fetch for a larger limit), leaves the entire state unchanged, performs no
limiter check or record, and issues no upstream request. -/

theorem cache_hit_short_circuit (digest : String → String) (apiKey : String)
    (now : ℚ) (fetch : FetchOutcome) (query : String) (m : ℕ)
    (st : AppState) (ts : ℚ) (p : List PlaceRec)
    (hfound : lookupKey (makeKey digest query) st.places_cache.cache
      = some (ts, p))
    (hfresh : now - ts < st.places_cache.ttl) :
    search_google_places digest apiKey now fetch query m st
      = (Except.ok (p.take m), st, false) ∧
    (p.take m).length = min m p.length := by
  have hget : SearchCache.get digest now query st.places_cache
      = (some p, st.places_cache) := by
    unfold SearchCache.get
    simp only [hfound, hfresh, if_true]
  constructor
  · unfold search_google_places
    rw [hget]
  · simp

/-- Witness for `cache_hit_short_circuit`: a fresh cached payload of two
records served against `max_results = 5`, with the limiter untouched. -/

theorem cache_hit_short_circuit_witness :
    lookupKey (makeKey id "q")
        (SearchCache.mk (α := List PlaceRec) 1800
          [("q", 0, [PlaceRec.mk "a" "n" "ad" 0 0 none 0 "" none none])]).cache
      = some (0, [PlaceRec.mk "a" "n" "ad" 0 0 none 0 "" none none]) ∧
    ((10 : ℚ) - 0 < (1800 : ℚ)) ∧
    search_google_places id "k" 10 (FetchOutcome.transportError "down") "q" 5
        ⟨SearchCache.mk 1800
          [("q", 0, [PlaceRec.mk "a" "n" "ad" 0 0 none 0 "" none none])],
         RateLimiter.init 5 5 "Google"⟩
      = (Except.ok [PlaceRec.mk "a" "n" "ad" 0 0 none 0 "" none none],
         ⟨SearchCache.mk 1800
           [("q", 0, [PlaceRec.mk "a" "n" "ad" 0 0 none 0 "" none none])],
          RateLimiter.init 5 5 "Google"⟩, false) := by
  refine ⟨by decide, by norm_num, ?_⟩
  have h := (cache_hit_short_circuit id "k" 10 (FetchOutcome.transportError "down")
    "q" 5
    ⟨SearchCache.mk 1800
      [("q", 0, [PlaceRec.mk "a" "n" "ad" 0 0 none 0 "" none none])],
     RateLimiter.init 5 5 "Google"⟩ 0
    [PlaceRec.mk "a" "n" "ad" 0 0 none 0 "" none none]
    (by decide) (by norm_num [SearchCache.ttl])).1
  simpa using h

/-- C9 counterexample.  On a cache miss admitted by the limiter, an
upstream response with status 500 — a failed fetch — does not leave the
limiter's windows unchanged: `record` runs before the status check, so the
call raises 502 yet the minute window has gained the timestamp, growing
from `[]` to `[0]`. -/

theorem frame_effects_counterexample :
    exceptSucceeded (search_google_places id "k" 0
        (FetchOutcome.httpResponse 500 "oops" []) "q" 5
        ⟨SearchCache.mk 1800 [], RateLimiter.init 5 5 "Google"⟩).1 = false ∧
    (search_google_places id "k" 0 (FetchOutcome.httpResponse 500 "oops" []) "q" 5
        ⟨SearchCache.mk 1800 [],
         RateLimiter.init 5 5 "Google"⟩).2.1.google_limiter.minute_window
      = [(0 : ℚ)] ∧
    (RateLimiter.init 5 5 "Google").minute_window = ([] : List ℚ) :=
  ⟨rfl, rfl, rfl⟩

/-- C9 (amended).  In `search_google_places`: a cache hit returns
without reading or mutating the rate limiter and issues no upstream
request; on a cache miss admitted by the limiter, `cache.set` is invoked
only when the external fetch succeeds — a transport failure leaves the
cache unwritten and the limiter only pruned — but `limiter.record` is
invoked whenever an HTTP response is received, before the status check, so
a non-200 response also appends to the windows (the cache is still
unwritten and the call raises 502); on a 200 response the transformed
results are cached and returned. -/

theorem frame_effects (digest : String → String) (apiKey : String)
    (now : ℚ) (query : String) (m : ℕ) (st : AppState) :
    (∀ (fetch : FetchOutcome) (p : List PlaceRec),
      (SearchCache.get digest now query st.places_cache).1 = some p →
      (search_google_places digest apiKey now fetch query m st).2.1.google_limiter
          = st.google_limiter ∧
      (search_google_places digest apiKey now fetch query m st).2.2 = false) ∧
    (∀ msg : String,
      (SearchCache.get digest now query st.places_cache).1 = none →
      (RateLimiter.check now st.google_limiter).1.1 = true →
      search_google_places digest apiKey now (FetchOutcome.transportError msg)
          query m st
        = (Except.error ⟨502, "Failed to reach Google Places API: " ++ msg⟩,
           ⟨(SearchCache.get digest now query st.places_cache).2,
            (RateLimiter.check now st.google_limiter).2⟩, true)) ∧
    (∀ (status : ℕ) (bodyText : String) (places : List GooglePlace),
      (SearchCache.get digest now query st.places_cache).1 = none →
      (RateLimiter.check now st.google_limiter).1.1 = true →
      (search_google_places digest apiKey now
          (FetchOutcome.httpResponse status bodyText places) query m st).2.1.google_limiter
        = RateLimiter.record now (RateLimiter.check now st.google_limiter).2) ∧
    (∀ (status : ℕ) (bodyText : String) (places : List GooglePlace),
      (SearchCache.get digest now query st.places_cache).1 = none →
      (RateLimiter.check now st.google_limiter).1.1 = true →
      status ≠ 200 →
      (search_google_places digest apiKey now
          (FetchOutcome.httpResponse status bodyText places) query m st).2.1.places_cache
        = (SearchCache.get digest now query st.places_cache).2 ∧
      (search_google_places digest apiKey now
          (FetchOutcome.httpResponse status bodyText places) query m st).1
        = Except.error ⟨502, "Google Places API error: " ++ toString status
            ++ " - " ++ bodyText⟩) ∧
    (∀ (bodyText : String) (places : List GooglePlace),
      (SearchCache.get digest now query st.places_cache).1 = none →
      (RateLimiter.check now st.google_limiter).1.1 = true →
      search_google_places digest apiKey now
          (FetchOutcome.httpResponse 200 bodyText places) query m st
        = (Except.ok (places.map (transformPlace apiKey)),
           ⟨SearchCache.set digest now query (places.map (transformPlace apiKey))
              (SearchCache.get digest now query st.places_cache).2,
            RateLimiter.record now (RateLimiter.check now st.google_limiter).2⟩,
           true)) := by
  refine ⟨?_, ?_, ?_, ?_, ?_⟩
  · intro fetch p hsome
    unfold search_google_places
    rw [hsome]
    exact ⟨rfl, rfl⟩
  · intro msg hnone hallow
    unfold search_google_places
    rw [hnone, hallow]
    simp
  · intro status bodyText places hnone hallow
    unfold search_google_places
    rw [hnone, hallow]
    by_cases hs : status = 200
    · subst hs; simp
    · simp [hs]
  · intro status bodyText places hnone hallow hs
    unfold search_google_places
    rw [hnone, hallow]
    simp [hs]
  · intro bodyText places hnone hallow
    unfold search_google_places
    rw [hnone, hallow]
    simp

/-- Witness for `frame_effects`: a non-200 response on an admitted miss
leaves the limiter recorded (windows gain the timestamp). -/

theorem frame_effects_witness :
    (SearchCache.get id 0 "q"
      (⟨SearchCache.mk 1800 [], RateLimiter.init 5 5 "Google"⟩ : AppState).places_cache).1
      = none ∧
    (RateLimiter.check 0
      (⟨SearchCache.mk 1800 [], RateLimiter.init 5 5 "Google"⟩ : AppState).google_limiter).1.1
      = true ∧
    (search_google_places id "k" 0 (FetchOutcome.httpResponse 500 "oops" []) "q" 5
        ⟨SearchCache.mk 1800 [], RateLimiter.init 5 5 "Google"⟩).2.1.google_limiter
      = RateLimiter.record 0 (RateLimiter.check 0
          (RateLimiter.init 5 5 "Google")).2 := by
  refine ⟨rfl, rfl, ?_⟩
  exact (frame_effects id "k" 0 "q" 5
    ⟨SearchCache.mk 1800 [], RateLimiter.init 5 5 "Google"⟩).2.2.1
    500 "oops" [] rfl rfl

end RoadTrip
